import Mathlib

/-!
Verification of the job scheduling & execution pipeline of ansible-webui.

This file gives a shallow embedding of the two source files the claims are
about, `aw/execute/util.py` and `aw/execute/threader.py`, and proves or
refutes the specification claims over that embedding.

Modelling conventions:
* Python `str` is `String`; `str.split(sep)` and `str.endswith(c)` for the
  one-character separators used by the source are re-implemented over the
  character list so that every definition evaluates inside the kernel.
* Python `dict` is an association list whose keys stay unique because every
  write goes through `dictSet` (insert-or-replace-in-place, exactly the
  Python `d[k] = v` semantics).
* Exceptions become `Except PyError`; the handlers of the source become
  `match` on that value.
* Django model rows (`Job`, `JobExecution`, ...) are plain structures; the
  execution status, stored by the source as a choice key resolved with
  `get_choice_key_by_value`, is modelled directly by its display value
  ("Starting", "Running", "Failed", "Finished").
* The filesystem is a pair of path lists (files, directories); `chmod` has
  no observable effect on anything the claims mention and is dropped.
* Wall-clock values (the run-directory timestamp, the random digit suffix)
  are parameters `now` and `suffix`.
-/

/-- Python exception values raised by the embedded code. `osError` stands for
any `OSError`; `typeError` for `TypeError`; `keyError` for `KeyError`. -/
inductive PyError
  | ansibleConfigError (msg : String)
  | typeError
  | keyError
  | osError
deriving Repr, DecidableEq, Inhabited

/-- Helper for `pySplit`: split a character list at every occurrence of the
separator character. -/
def splitCharsAux (sep : Char) : List Char → List Char → List (List Char)
  | [], cur => [cur.reverse]
  | c :: rest, cur =>
    if c == sep then cur.reverse :: splitCharsAux sep rest []
    else splitCharsAux sep rest (c :: cur)

/-- Python `str.split(sep)` for a one-character separator (the source only
splits on `,` and `=`): `"".split(",") = [""]`, `"a,,b".split(",") = ["a", "", "b"]`. -/
def pySplit (s : String) (sep : Char) : List String :=
  (splitCharsAux sep s.data []).map (fun cs => String.mk cs)

/-- Python `str.endswith(c)` for a one-character suffix. -/
def pyEndsWith (s : String) (c : Char) : Bool :=
  match s.data.reverse with
  | [] => false
  | c2 :: _ => c2 == c

/-- Python's `/` operator applied to two `str` operands, as in
`path_run / 'play_base'` (util.py line 81), where `path_run` was built by
string concatenation a few lines above: `str` defines neither `__truediv__`
nor `__rtruediv__`, so the interpreter raises `TypeError`. -/
def pyStrTrueDiv (_a _b : String) : Except PyError String :=
  Except.error PyError.typeError

/-- A Python `dict` with `str` keys and values, written only through
`dictSet`, so keys stay unique and insertion order is kept. -/
abbrev PyDict := List (String × String)

/-- Python `d[k] = v`: replace the value in place when the key exists,
append otherwise. -/
def dictSet (d : PyDict) (k v : String) : PyDict :=
  match d with
  | [] => [(k, v)]
  | (k2, v2) :: t => if k2 == k then (k2, v) :: t else (k2, v2) :: dictSet t k v

/-- Python `d.get(k)`: the first (for a `dictSet`-built dict, the only)
value stored under `k`. -/
def dictGet (d : PyDict) (k : String) : Option String :=
  match d with
  | [] => none
  | (k2, v2) :: t => if k2 == k then some v2 else dictGet t k

/-- The value of the last entry of `d` whose key is `k` (what Python keeps
when the same key is written twice). -/
def dictGetLast (d : PyDict) (k : String) : Option String :=
  match d with
  | [] => none
  | (k2, v2) :: t =>
    match dictGetLast t k with
    | some v => some v
    | none => if k2 == k then some v2 else none

/-- Python `{**a, **b}`: every entry of `b` written on top of `a` in order. -/
def dictMerge (a : PyDict) : PyDict → PyDict
  | [] => a
  | (k, v) :: t => dictMerge (dictSet a k v) t

/-- The message of the `AnsibleConfigError` that `_decode_env_vars` raises
(util.py lines 28-31). -/
def envVarsFormatError (src : String) : String :=
  "Environmental variables of " ++ src ++ " are not in a valid format " ++
  "(comma-separated key-value pairs). Example: 'key1=val1,key2=val2'"

/-- The loop body of `_decode_env_vars` (util.py lines 20-23): for every
comma-separated token, `k, v = kv.split('=')` — unpacking raises
`ValueError` (here `Except.error ()`) unless the split has exactly two
parts — then `env_vars[k] = v`. -/
def decodeEnvTokens : List String → PyDict → Except Unit PyDict
  | [], acc => Except.ok acc
  | kv :: rest, acc =>
    match pySplit kv '=' with
    | [k, v] => decodeEnvTokens rest (dictSet acc k v)
    | _ => Except.error ()

/-- `_decode_env_vars` (util.py lines 18-31): parse a `key=value,key=value`
CSV string; on any `ValueError` raise `AnsibleConfigError` naming `src`. -/
def _decode_env_vars (env_vars_csv : String) (src : String) : Except PyError PyDict :=
  match decodeEnvTokens (pySplit env_vars_csv ',') [] with
  | Except.ok d => Except.ok d
  | Except.error _ => Except.error (PyError.ansibleConfigError (envVarsFormatError src))

/-- The fields of `aw.model.job.Job` that the embedded code reads. Jobs are
Django rows compared by primary key, kept here as `id`. -/
structure Job where
  id : Nat := 0
  name : String := ""
  schedule : String := ""
  playbook : String := ""
  inventory : String := ""
  limit : Option String := none
  environment_vars : Option String := none
deriving Repr, DecidableEq, Inhabited

/-- `aw.model.job.JobExecutionResult`: start timestamp and failed flag. -/
structure JobExecutionResult where
  time_start : String := ""
  failed : Bool := false
deriving Repr, DecidableEq, Inhabited

/-- `aw.model.job.JobExecutionResultHost`: per-host outcome counts. -/
structure JobExecutionResultHost where
  unreachable : Bool := false
  tasks_skipped : Nat := 0
  tasks_ok : Nat := 0
  tasks_failed : Nat := 0
  tasks_ignored : Nat := 0
  tasks_rescued : Nat := 0
  tasks_changed : Nat := 0
deriving Repr, DecidableEq, Inhabited

/-- The fields of `aw.model.job.JobExecution` that the embedded code reads
or writes. -/
structure JobExecution where
  user : Option Nat := none
  comment : String := ""
  limit : Option String := none
  environment_vars : Option String := none
  status : String := ""
  result : Option JobExecutionResult := none
deriving Repr, DecidableEq, Inhabited

/-- The two configuration values of `aw.config.main.config` that the
embedded code reads. -/
structure AwConfig where
  path_run : String := ""
  path_play : String := ""
deriving Repr, DecidableEq, Inhabited

/-- The AW environment toggles consulted by `_runner_options`
(`check_aw_env_var_is_set` / `check_aw_env_var_true` / `get_aw_env_var`). -/
structure AwEnv where
  run_timeout_set : Bool := false
  run_timeout : Nat := 0
  run_isolate_dir : Bool := false
  run_isolate_process : Bool := false
  run_isolate_process_path_hide : String := ""
  run_isolate_process_path_show : String := ""
  run_isolate_process_path_ro : String := ""
deriving Repr, DecidableEq, Inhabited

/-- The options dict built by `_runner_options` and completed by
`runner_prep`; keys that the source only sets under a toggle are `Option`
fields, `none` standing for an absent key. -/
structure RunnerOpts where
  runner_mode : String := "pexpect"
  private_data_dir : String := ""
  project_dir : String := ""
  quiet : Bool := true
  limit : Option String := none
  envvars : PyDict := []
  timeout : Option Nat := none
  directory_isolation_base_path : Option String := none
  process_isolation : Option Bool := none
  process_isolation_hide_paths : Option String := none
  process_isolation_show_paths : Option String := none
  process_isolation_ro_paths : Option String := none
  playbook : List String := []
  inventory : List String := []
deriving Repr, DecidableEq, Inhabited

/-- `path_run` as `_runner_options` assembles it (util.py lines 47-52):
the configured base path, slash-terminated, then the timestamp and the
five random digits. -/
def runPath (cfg : AwConfig) (now : String) (suffix : String) : String :=
  (if pyEndsWith cfg.path_run '/' then cfg.path_run else cfg.path_run ++ "/") ++ now ++ suffix

/-- A slash-terminated copy of a directory path (util.py lines 48-49 and
103-105). -/
def projectDirSlash (s : String) : String :=
  if pyEndsWith s '/' then s else s ++ "/"

/-- `_runner_options` (util.py lines 39-89). `now` is
`datetime.now().strftime(RUNNER_TMP_DIR_TIME_FORMAT)` and `suffix` the five
random digits. -/
def _runner_options (job : Job) (execution : JobExecution) (cfg : AwConfig)
    (env : AwEnv) (now : String) (suffix : String) : Except PyError RunnerOpts :=
  let path_run := runPath cfg now suffix
  match (match job.environment_vars with
         | none => Except.ok ([] : PyDict)
         | some csv =>
           match _decode_env_vars csv "Job" with
           | Except.ok d => Except.ok (dictMerge [] d)
           | Except.error e => Except.error e) with
  | Except.error e => Except.error e
  | Except.ok env_vars1 =>
    match (match execution.environment_vars with
           | none => Except.ok env_vars1
           | some csv =>
             match _decode_env_vars csv "Execution" with
             | Except.ok d => Except.ok (dictMerge env_vars1 d)
             | Except.error e => Except.error e) with
    | Except.error e => Except.error e
    | Except.ok env_vars =>
      let opts : RunnerOpts :=
        { runner_mode := "pexpect"
          private_data_dir := path_run
          project_dir := cfg.path_play
          quiet := true
          limit := if execution.limit.isSome then execution.limit else job.limit
          envvars := env_vars }
      let opts1 := if env.run_timeout_set then { opts with timeout := some env.run_timeout } else opts
      match (if env.run_isolate_dir then
               match pyStrTrueDiv path_run "play_base" with
               | Except.ok p => Except.ok { opts1 with directory_isolation_base_path := some p }
               | Except.error e => Except.error e
             else Except.ok opts1) with
      | Except.error e => Except.error e
      | Except.ok opts2 =>
        Except.ok (if env.run_isolate_process then
          { opts2 with
              process_isolation := some true
              process_isolation_hide_paths := some env.run_isolate_process_path_hide
              process_isolation_show_paths := some env.run_isolate_process_path_show
              process_isolation_ro_paths := some env.run_isolate_process_path_ro }
        else opts2)

/-- The filesystem as the embedded code observes it: which paths are
regular files and which are directories. -/
structure FS where
  files : List String := []
  dirs : List String := []
deriving Repr, DecidableEq, Inhabited

/-- `Path(p).is_file()`. -/
def FS.isFile (fs : FS) (p : String) : Bool := fs.files.contains p

/-- `Path(p).exists()`. -/
def FS.pathExists (fs : FS) (p : String) : Bool := fs.files.contains p || fs.dirs.contains p

/-- `Path(p).is_dir()`. -/
def FS.isDir (fs : FS) (p : String) : Bool := fs.dirs.contains p

/-- `Path(p).mkdir()` followed by `chmod(p, 0o750)` (permissions are not
tracked). -/
def FS.mkdir (fs : FS) (p : String) : FS := { fs with dirs := fs.dirs ++ [p] }

/-- util.py line 110. -/
def playbookNotFoundMsg (ppf : String) : String :=
  "Configured playbook not found: '" ++ ppf ++ "'"

/-- util.py line 115. -/
def inventoryNotFoundMsg (pth : String) : String :=
  "Configured inventory not found: '" ++ pth ++ "'"

/-- The `JobExecution` that `runner_prep` synthesizes for a scheduled run
(util.py line 94). -/
def scheduledExecution : JobExecution :=
  { user := none, comment := "Scheduled" }

/-- `runner_prep` (util.py lines 92-124). Returns the raised exception or
the finished options, the execution status last written through
`_update_execution_status`, and the filesystem after the call. -/
def runner_prep (job : Job) (executionOpt : Option JobExecution) (cfg : AwConfig)
    (env : AwEnv) (now : String) (suffix : String) (fs : FS) :
    Except PyError RunnerOpts × String × FS :=
  let execution := match executionOpt with
    | none => scheduledExecution
    | some e => e
  -- _update_execution_status(execution, status='Starting')
  let status := "Starting"
  match _runner_options job execution cfg env now suffix with
  | Except.error e => (Except.error e, status, fs)
  | Except.ok opts0 =>
    let opts := { opts0 with
        playbook := pySplit job.playbook ','
        inventory := pySplit job.inventory ',' }
    let project_dir := projectDirSlash opts.project_dir
    match opts.playbook.find? (fun p => !(fs.isFile (project_dir ++ p))) with
    | some p => (Except.error (PyError.ansibleConfigError (playbookNotFoundMsg (project_dir ++ p))), status, fs)
    | none =>
      match opts.inventory.find? (fun inv => !(fs.pathExists (project_dir ++ inv))) with
      | some inv => (Except.error (PyError.ansibleConfigError (inventoryNotFoundMsg (project_dir ++ inv))), status, fs)
      | none =>
        let fs2 := if fs.isDir opts.private_data_dir then fs else fs.mkdir opts.private_data_dir
        -- _update_execution_status(execution, status='Running')
        (Except.ok opts, "Running", fs2)

/-- One per-category host-to-count mapping of `AnsibleRunner.stats`. -/
abbrev StatDict := List (String × Nat)

/-- Python `host in d` on a stats category dict: key membership. -/
def statContains (d : StatDict) (h : String) : Bool :=
  match d with
  | [] => false
  | (k, _) :: t => k == h || statContains t h

/-- Python `d[host]` on a stats category dict; only evaluated by the source
under a `host in d` guard, so the `none` case is unreachable there. -/
def statGet (d : StatDict) (h : String) : Option Nat :=
  match d with
  | [] => none
  | (k, v) :: t => if k == h then some v else statGet t h

/-- `AnsibleRunner.stats`: the per-category mappings the source reads. The
`processed` and `unreachable` categories are only ever used through key
iteration / key membership, so they are kept as their key lists. -/
structure RunnerStats where
  processed : List String := []
  unreachable : List String := []
  skipped : StatDict := []
  ok : StatDict := []
  failures : StatDict := []
  ignored : StatDict := []
  rescued : StatDict := []
  changed : StatDict := []
deriving Repr, DecidableEq, Inhabited

/-- The outcome object of the external runner: `errored` flag plus stats. -/
structure AnsibleRunnerRes where
  errored : Bool := false
  stats : RunnerStats := {}
deriving Repr, DecidableEq, Inhabited

/-- The per-host record built by the loop body of `parse_run_result`
(util.py lines 140-148): each count field is `d[host] if host in d else 0`. -/
def buildResultHost (stats : RunnerStats) (host : String) : JobExecutionResultHost :=
  { unreachable := stats.unreachable.contains host
    tasks_skipped := if statContains stats.skipped host then (statGet stats.skipped host).getD 0 else 0
    tasks_ok := if statContains stats.ok host then (statGet stats.ok host).getD 0 else 0
    tasks_failed := if statContains stats.failures host then (statGet stats.failures host).getD 0 else 0
    tasks_ignored := if statContains stats.ignored host then (statGet stats.ignored host).getD 0 else 0
    tasks_rescued := if statContains stats.rescued host then (statGet stats.rescued host).getD 0 else 0
    tasks_changed := if statContains stats.changed host then (statGet stats.changed host).getD 0 else 0 }

/-- `parse_run_result` (util.py lines 131-162). Returns the saved
`JobExecutionResult`, the saved per-host rows in creation order, and the
execution after its `result` reference and terminal status are written. -/
def parse_run_result (execution : JobExecution) (time_start : String)
    (result : AnsibleRunnerRes) :
    JobExecutionResult × List JobExecutionResultHost × JobExecution :=
  let job_result : JobExecutionResult := { time_start := time_start, failed := result.errored }
  let hosts := result.stats.processed.map (buildResultHost result.stats)
  let execution1 := { execution with result := some job_result }
  let execution2 :=
    if job_result.failed then { execution1 with status := "Failed" }
    else { execution1 with status := "Finished" }
  (job_result, hosts, execution2)

/-! ## The threader (`aw/execute/threader.py`)

A `Workload` is a Python `Thread` object mutated in place, so worker
objects live in a heap keyed by the value of `thread_nr` at creation time
(the manager names each worker "Thread #n" with a strictly increasing `n`,
so these keys identify one object each).  The manager's `threads` set holds
references to those objects; it may in principle hold any Python object, so
its elements are a sum of a worker reference and a `Job` reference — the
latter is what `Workload.run` passes to `set.remove` on its one-shot path.
Python object equality here is Django's by-primary-key equality for `Job`
and `Thread`'s default identity equality for workers; a `Job` never equals
a `Workload`. -/

/-- The mutable state of one `Workload` thread object (threader.py lines
18-29): the job it references (by id), the `once` flag and the
started/stopped flags plus the `state_stop` event. -/
structure Workload where
  job : Nat := 0
  once : Bool := false
  started : Bool := false
  stopped : Bool := false
  state_stop : Bool := false
deriving Repr, DecidableEq, Inhabited

/-- A fresh worker as `Workload.__init__` leaves it. -/
def Workload.init (job : Nat) (once : Bool) : Workload :=
  { job := job, once := once, started := false, stopped := false, state_stop := false }

/-- `Workload.stop` (threader.py lines 31-46): set the stop event, join
with a bounded timeout (a failed join is only logged), mark not-started and
stopped, and return `True` — unconditionally. -/
def Workload.stop (w : Workload) : Bool × Workload :=
  (true, { w with state_stop := true, started := false, stopped := true })

/-- An element of the manager's `threads` set: a reference to a worker
object, or a `Job` reference (what `set.remove(self.job)` looks for). -/
inductive SetElem
  | worker (wid : Nat)
  | job (jid : Nat)
deriving Repr, DecidableEq, Inhabited

/-- Python `set.remove(x)`: drop the element when present, raise `KeyError`
otherwise. -/
def pySetRemove (s : List SetElem) (x : SetElem) : Except PyError (List SetElem) :=
  if s.contains x then Except.ok (s.erase x) else Except.error PyError.keyError

/-- The `ThreadManager` state together with the worker-object heap. -/
structure ThreadManager where
  heap : List (Nat × Workload) := []
  threads : List SetElem := []
  thread_nr : Nat := 0
  stopping : Bool := false
deriving Repr, DecidableEq, Inhabited

/-- Dereference a worker id. -/
def heapGet (h : List (Nat × Workload)) (wid : Nat) : Option Workload :=
  match h with
  | [] => none
  | (k, w) :: t => if k == wid then some w else heapGet t wid

/-- Mutate the worker object behind `wid` in place. -/
def heapModify (h : List (Nat × Workload)) (wid : Nat) (f : Workload → Workload) :
    List (Nat × Workload) :=
  match h with
  | [] => []
  | (k, w) :: t => if k == wid then (k, f w) :: t else (k, w) :: heapModify t wid f

/-- `ThreadManager.__init__` (threader.py lines 103-106). -/
def ThreadManager.init : ThreadManager := {}

/-- `ThreadManager.add_thread` (threader.py lines 115-126): increment
`thread_nr` and add a fresh `Workload` for `job` to the set,
unconditionally — no check for an existing worker of the same job. -/
def ThreadManager.add_thread (m : ThreadManager) (job : Nat) (once : Bool := false) :
    ThreadManager :=
  let nr := m.thread_nr + 1
  { m with
      thread_nr := nr
      heap := m.heap ++ [(nr, Workload.init job once)]
      threads := m.threads ++ [SetElem.worker nr] }

/-- The loop predicate of `ThreadManager.stop_thread` (threader.py lines
146-148): `thread.job == job` and `thread.started` (an element that is not
a worker object would fail the attribute access; the manager never stores
one). -/
def stopThreadMatch (m : ThreadManager) (job : Nat) (e : SetElem) : Bool :=
  match e with
  | SetElem.worker wid =>
    match heapGet m.heap wid with
    | some w => w.job == job && w.started
    | none => false
  | SetElem.job _ => false

/-- The loop predicate of `ThreadManager.start_thread` (threader.py lines
155-157): `thread.job == job` and `not thread.started`. -/
def startThreadMatch (m : ThreadManager) (job : Nat) (e : SetElem) : Bool :=
  match e with
  | SetElem.worker wid =>
    match heapGet m.heap wid with
    | some w => w.job == job && !w.started
    | none => false
  | SetElem.job _ => false

/-- `ThreadManager.stop_thread` (threader.py lines 144-152): scan the set
for the first *started* worker of `job` — a not-yet-started worker of the
same job does not match and is left in place — call its `stop` and remove
it from the set; without a match the call is a silent no-op. -/
def ThreadManager.stop_thread (m : ThreadManager) (job : Nat) : ThreadManager :=
  match m.threads.find? (stopThreadMatch m job) with
  | some (SetElem.worker wid) =>
    let m1 := { m with heap := heapModify m.heap wid (fun w => (Workload.stop w).2) }
    { m1 with threads := m1.threads.erase (SetElem.worker wid) }
  | _ => m

/-- `ThreadManager.start_thread` (threader.py lines 154-160): scan the set
for the first not-started worker of `job` and call `thread.start()`, which
launches `Workload.run`; its immediate effect — the run prologue up to the
point where a recurring worker blocks on its schedule wait — is
`self.started = True`, skipped when the worker is already flagged stopped
(run returns at its stopped-guard).  The rest of `run` is modelled by
`runWorkload` below. -/
def ThreadManager.start_thread (m : ThreadManager) (job : Nat) : ThreadManager :=
  match m.threads.find? (startThreadMatch m job) with
  | some (SetElem.worker wid) =>
    match heapGet m.heap wid with
    | some w =>
      if w.stopped then m
      else { m with heap := heapModify m.heap wid (fun w2 => { w2 with started := true }) }
    | none => m
  | _ => m

/-- `ThreadManager.replace_thread` (threader.py lines 162-166):
`stop_thread`, then `add_thread` (with `once=False` and no execution), then
`start_thread`. -/
def ThreadManager.replace_thread (m : ThreadManager) (job : Nat) : ThreadManager :=
  ((m.stop_thread job).add_thread job).start_thread job

/-- `ThreadManager.stop` (threader.py lines 128-142): return `False` at
once when already stopping; otherwise set `stopping`, remove every element
of a snapshot of the set from the set — which empties it — and return
`True`.  No worker's `stop` is called anywhere in the body. -/
def ThreadManager.stop (m : ThreadManager) : Bool × ThreadManager :=
  if m.stopping then (false, m)
  else (true, { m with stopping := true, threads := [] })

/-- Does this set element reference a worker of `job`? -/
def jobMatch (m : ThreadManager) (job : Nat) (e : SetElem) : Bool :=
  match e with
  | SetElem.worker wid =>
    match heapGet m.heap wid with
    | some w => w.job == job
    | none => false
  | SetElem.job _ => false

/-- The number of workers in the manager's active set that reference `job`. -/
def ThreadManager.countJob (m : ThreadManager) (job : Nat) : Nat :=
  (m.threads.filter (jobMatch m job)).length

/-- Well-formedness of a manager state, maintained by construction: every
heap key and every worker id in the set is at most `thread_nr` (ids are
handed out as successive values of `thread_nr`). -/
def ThreadManager.wf (m : ThreadManager) : Bool :=
  m.heap.all (fun p => p.1 ≤ m.thread_nr) &&
  m.threads.all (fun e =>
    match e with
    | SetElem.worker wid => wid ≤ m.thread_nr
    | SetElem.job _ => true)

/-! ### `Workload.run`

`Workload.run` (threader.py lines 51-99) is modelled as a fuel-indexed
function over the manager state.  External input enters through an oracle:
the outcome of the `n`-th `ansible_playbook` call, and whether the
`state_stop` event gets set by another thread during the `n`-th
`state_stop.wait(wait_sec)` (an external `Workload.stop` first sets the
event and then *joins*, so the caller's flag writes land only after `run`
returns — during `run` only the event is visible, which is exactly what
the oracle models).  The cron helpers are treated as total; the computed
`wait_sec` does not influence the control flow as modelled, because waiting
is resolved by the oracle. -/

/-- What the oracle decides. -/
structure RunOracle where
  play : Nat → Except PyError Unit
  waitStop : Nat → Bool

/-- The observable steps of one `run` invocation. -/
inductive RunEvent
  | failSleep
  | runtimeEnter
  | playbook
  | caught
  | loopExitStop
deriving Repr, DecidableEq, Inhabited

/-- Where execution stands: entering `run(error=...)` from the top, or at
the `state_stop.wait` of the recurring loop. -/
inductive RunPhase
  | enter (error : Bool)
  | loop
deriving Repr, DecidableEq, Inhabited

/-- Manager state plus the event trace and the oracle cursors. -/
structure RunCtx where
  mgr : ThreadManager := {}
  events : List RunEvent := []
  playIdx : Nat := 0
  waitIdx : Nat := 0
deriving Repr, DecidableEq, Inhabited

/-- `Workload.run` of the worker behind `wid`.  Fuel bounds the recursion
(`self.run(error=True)`) and the loop; `none` means the fuel ran out, never
that an exception escaped — every raise site of the body sits inside the
`try` whose handlers catch `AnsibleConfigError`, `OSError` and `Exception`
and re-enter `run`. -/
def runWorkload (o : RunOracle) (wid : Nat) : Nat → RunPhase → RunCtx → Option RunCtx
  | 0, _, _ => none
  | Nat.succ fuel, RunPhase.enter error, c =>
    match heapGet c.mgr.heap wid with
    | none => some c
    | some w =>
      -- if self.once and self.started: return
      if w.once && w.started then some c
      -- if self.stopped: return
      else if w.stopped then some c
      else
        -- if error: sleep(self.FAIL_SLEEP)
        let c1 := if error then { c with events := c.events ++ [RunEvent.failSleep] } else c
        -- self.started = True; log('Entering runtime...')
        let c2 := { c1 with
            mgr := { c1.mgr with heap := heapModify c1.mgr.heap wid (fun w2 => { w2 with started := true }) }
            events := c1.events ++ [RunEvent.runtimeEnter] }
        if w.once then
          match o.play c2.playIdx with
          | Except.ok _ =>
            let c3 := { c2 with playIdx := c2.playIdx + 1, events := c2.events ++ [RunEvent.playbook] }
            -- self.stop()
            let c4 := { c3 with
                mgr := { c3.mgr with heap := heapModify c3.mgr.heap wid (fun w2 => (Workload.stop w2).2) } }
            -- self.manager.threads.remove(self.job): the argument is the Job
            -- object, the set holds Workload objects
            match pySetRemove c4.mgr.threads (SetElem.job w.job) with
            | Except.ok ts => some { c4 with mgr := { c4.mgr with threads := ts } }
            | Except.error _ =>
              -- caught by `except Exception`; log; self.run(error=True)
              runWorkload o wid fuel (RunPhase.enter true) { c4 with events := c4.events ++ [RunEvent.caught] }
          | Except.error _ =>
            -- caught; log; self.run(error=True)
            runWorkload o wid fuel (RunPhase.enter true)
              { c2 with playIdx := c2.playIdx + 1, events := c2.events ++ [RunEvent.playbook, RunEvent.caught] }
        else
          -- wait_sec = get_next_cron_execution_sec(...); enter the while loop
          runWorkload o wid fuel RunPhase.loop c2
  | Nat.succ fuel, RunPhase.loop, c =>
    match heapGet c.mgr.heap wid with
    | none => some c
    | some w =>
      -- while not self.state_stop.wait(wait_sec):
      let signaled := w.state_stop || o.waitStop c.waitIdx
      let c1 := { c with
          waitIdx := c.waitIdx + 1
          mgr := if signaled then
              { c.mgr with heap := heapModify c.mgr.heap wid (fun w2 => { w2 with state_stop := true }) }
            else c.mgr }
      if signaled then
        -- wait returned True: the while condition is false, run returns
        some { c1 with events := c1.events ++ [RunEvent.loopExitStop] }
      else
        -- the is_set re-check right after a timed-out wait is false here;
        -- self.run_playbook()
        match o.play c1.playIdx with
        | Except.ok _ =>
          runWorkload o wid fuel RunPhase.loop
            { c1 with playIdx := c1.playIdx + 1, events := c1.events ++ [RunEvent.playbook] }
        | Except.error _ =>
          -- caught; log; self.run(error=True)
          runWorkload o wid fuel (RunPhase.enter true)
            { c1 with playIdx := c1.playIdx + 1, events := c1.events ++ [RunEvent.playbook, RunEvent.caught] }

/-! ## Spec-side definitions

These definitions follow the wording of the specification (not the source)
and exist to be compared with the source-side definitions above. -/

/-- Spec side: a CSV string is malformed when some comma-separated token
does not split into exactly one key and one value at `=`. -/
def malformedCsv (s : String) : Bool :=
  (pySplit s ',').any (fun t => (pySplit t '=').length != 2)

/-- Spec side (§4.5): the per-host record — unreachable iff the host is in
the unreachable set, each count the host's entry in its category or 0 when
the host is absent from that category. -/
def specHostRecord (stats : RunnerStats) (host : String) : JobExecutionResultHost :=
  { unreachable := stats.unreachable.contains host
    tasks_skipped := (statGet stats.skipped host).getD 0
    tasks_ok := (statGet stats.ok host).getD 0
    tasks_failed := (statGet stats.failures host).getD 0
    tasks_ignored := (statGet stats.ignored host).getD 0
    tasks_rescued := (statGet stats.rescued host).getD 0
    tasks_changed := (statGet stats.changed host).getD 0 }

/-- Does this result hold a raised `AnsibleConfigError`? -/
def isAnsibleConfigError (r : Except PyError RunnerOpts) : Bool :=
  match r with
  | Except.error (PyError.ansibleConfigError _) => true
  | _ => false

/-- Is the stop event of the worker behind `wid` set in this state? -/
def stopSignalSet (c : RunCtx) (wid : Nat) : Bool :=
  match heapGet c.mgr.heap wid with
  | some w => w.state_stop
  | none => false

/-! ## Concrete fixtures for the evaluation theorems -/

/-- Oracle: every playbook run succeeds, no external stop. -/
def playOkOracle : RunOracle :=
  { play := fun _ => Except.ok (), waitStop := fun _ => false }

/-- Oracle: every playbook run raises `AnsibleConfigError`, no external stop. -/
def playErrOracle : RunOracle :=
  { play := fun _ => Except.error (PyError.ansibleConfigError "fail"), waitStop := fun _ => false }

/-- Oracle: the first playbook run raises `OSError`, later ones succeed;
an external stop sets the event during the second wait. -/
def errThenStopOracle : RunOracle :=
  { play := fun n => if n == 0 then Except.error PyError.osError else Except.ok ()
    waitStop := fun n => n == 1 }

/-- A manager holding one freshly added one-shot worker for job 2
(worker id 1, not yet started). -/
def onceMgr : ThreadManager := ThreadManager.init.add_thread 2 true

/-- The state `Workload.run` leaves behind for a one-shot worker whose
playbook run succeeds (see `C2_run_once_keyerror`). -/
def onceRunFinal : RunCtx :=
  { mgr := { heap := [(1, { job := 2, once := true, started := false, stopped := true, state_stop := true })]
             threads := [SetElem.worker 1]
             thread_nr := 1
             stopping := false }
    events := [RunEvent.runtimeEnter, RunEvent.playbook, RunEvent.caught]
    playIdx := 1
    waitIdx := 0 }

/-- The state `Workload.run` leaves behind for a one-shot worker whose
playbook run raises (see `C9_counterexample`). -/
def onceErrFinal : RunCtx :=
  { mgr := { heap := [(1, { job := 2, once := true, started := true, stopped := false, state_stop := false })]
             threads := [SetElem.worker 1]
             thread_nr := 1
             stopping := false }
    events := [RunEvent.runtimeEnter, RunEvent.playbook, RunEvent.caught]
    playIdx := 1
    waitIdx := 0 }

/-- A manager holding one started recurring worker for job 4. -/
def recurringMgr : ThreadManager := ThreadManager.init.add_thread 4

/-- The state `Workload.run` reaches for a recurring worker whose first
playbook run raises and that is stopped during its second wait. -/
def recurringErrFinal : RunCtx :=
  { mgr := { heap := [(1, { job := 4, once := false, started := true, stopped := false, state_stop := true })]
             threads := [SetElem.worker 1]
             thread_nr := 1
             stopping := false }
    events := [RunEvent.runtimeEnter, RunEvent.playbook, RunEvent.caught,
               RunEvent.failSleep, RunEvent.runtimeEnter, RunEvent.loopExitStop]
    playIdx := 1
    waitIdx := 2 }

/-- A manager holding one started worker for job 3 (worker id 1). -/
def startedMgr : ThreadManager := (ThreadManager.init.add_thread 3).start_thread 3

/-- A worker that has already been stopped. -/
def stoppedWorker : Workload :=
  { job := 1, once := false, started := false, stopped := true, state_stop := true }

/-- A job whose playbook path does not exist. -/
def c4Job : Job := { playbook := "missing.yml", inventory := "hosts" }

/-- Concrete config for the evaluation theorems. -/
def cfg0 : AwConfig := { path_run := "/runs", path_play := "/play" }

/-! ## Claims settled by concrete evaluation -/

/-- C1, counterexample. The claim says no reachable state holds two workers
for the same job and in particular that `replace_thread(job)` on a manager
already holding a worker for `job` leaves exactly one.  Counterexample: on
a manager holding one not-yet-started worker for job 1, `replace_thread 1`
leaves two workers for job 1 — `stop_thread` skips the worker because it is
not started, and `add_thread` adds a second one unconditionally. -/
theorem C1_counterexample :
    ((ThreadManager.init.add_thread 1).replace_thread 1).countJob 1 = 2 := rfl

/-- C2. Evaluating `Workload.run` for a one-shot worker whose playbook run
succeeds: the playbook runs exactly once and the worker signals self-stop,
but `self.manager.threads.remove(self.job)` passes the `Job` object to a
set that holds `Workload` objects, so `KeyError` is raised, swallowed by
the generic handler, and the worker is never removed from the manager's
set — after `run` returns the set still contains the worker. -/
theorem C2_run_once_keyerror :
    runWorkload playOkOracle 1 10 (RunPhase.enter false) { mgr := onceMgr } = some onceRunFinal
    ∧ onceRunFinal.events = [RunEvent.runtimeEnter, RunEvent.playbook, RunEvent.caught]
    ∧ heapGet onceRunFinal.mgr.heap 1 =
        some { job := 2, once := true, started := false, stopped := true, state_stop := true }
    ∧ onceRunFinal.mgr.threads = [SetElem.worker 1]
    ∧ onceRunFinal.mgr.countJob 2 = 1 :=
  ⟨rfl, rfl, rfl, rfl, rfl⟩

/-- C3. Evaluating `ThreadManager.stop` on a manager with one registered
started worker whose stop event is unset: the call returns `True` and
empties the set, but the worker heap is untouched — no worker's stop signal
is raised, contradicting the claim that `stop()` raises the stop signal of
every registered worker. -/
theorem C3_manager_stop_no_signal :
    (startedMgr.stop).1 = true
    ∧ (startedMgr.stop).2.threads = []
    ∧ (startedMgr.stop).2.heap = startedMgr.heap
    ∧ heapGet startedMgr.heap 1 =
        some { job := 3, once := false, started := true, stopped := false, state_stop := false } :=
  ⟨rfl, rfl, rfl, rfl⟩

/-- C4, counterexample. With the run-isolate-directory toggle enabled, a
job whose playbook file is missing makes `runner_prep` raise `TypeError`
(from `path_run / 'play_base'` on two strings), not a configuration error
naming the missing path, as the claim states. -/
theorem C4_counterexample :
    runner_prep c4Job (some {}) cfg0 { run_isolate_dir := true } "t" "00000" {} =
      (Except.error PyError.typeError, "Starting", ({} : FS))
    ∧ isAnsibleConfigError
        (runner_prep c4Job (some {}) cfg0 { run_isolate_dir := true } "t" "00000" {}).1 = false :=
  ⟨rfl, rfl⟩

/-- C7, counterexample. The claim says stopping an already-stopped worker
returns a falsy result; `Workload.stop` returns `True` unconditionally
(the worker's state is indeed left unchanged). -/
theorem C7_counterexample :
    (Workload.stop stoppedWorker).1 = true
    ∧ (Workload.stop stoppedWorker).2 = stoppedWorker :=
  ⟨rfl, rfl⟩

/-- C8. With the run-isolate-directory toggle enabled, `_runner_options`
raises `TypeError` at `path_run / 'play_base'` (both operands are `str`)
instead of returning an options descriptor with a directory-isolation base
path; the process-isolation branch alone works as described. -/
theorem C8_isolate_dir_typeerror :
    _runner_options {} {} cfg0 { run_isolate_dir := true } "t" "00000" =
      Except.error PyError.typeError
    ∧ _runner_options {} {} cfg0
        { run_isolate_process := true
          run_isolate_process_path_hide := "/hide"
          run_isolate_process_path_show := "/show"
          run_isolate_process_path_ro := "/ro" } "t" "00000" =
      Except.ok { private_data_dir := "/runs/t00000"
                  project_dir := "/play"
                  process_isolation := some true
                  process_isolation_hide_paths := some "/hide"
                  process_isolation_show_paths := some "/show"
                  process_isolation_ro_paths := some "/ro" } :=
  ⟨rfl, rfl⟩

/-- C9, counterexample. The claim says every worker whose run raises backs
off for FAIL_SLEEP and re-enters its run loop, and that only a stop signal
terminates it.  Counterexample: a one-shot worker whose playbook run
raises — the handler re-invokes `run(error=True)`, which returns at the
`once and started` guard *before* the FAIL_SLEEP backoff, so the worker
terminates with no backoff, no stop signal and no stopped flag, and stays
registered. -/
theorem C9_counterexample :
    runWorkload playErrOracle 1 10 (RunPhase.enter false) { mgr := onceMgr } = some onceErrFinal
    ∧ onceErrFinal.events.contains RunEvent.failSleep = false
    ∧ stopSignalSet onceErrFinal 1 = false
    ∧ heapGet onceErrFinal.mgr.heap 1 =
        some { job := 2, once := true, started := true, stopped := false, state_stop := false } :=
  ⟨rfl, rfl, rfl, rfl⟩

/-! ## Dictionary lemmas -/

theorem dictGet_dictSet_eq (d : PyDict) (k v : String) :
    dictGet (dictSet d k v) k = some v := by
  induction d with
  | nil => simp [dictSet, dictGet]
  | cons p t ih =>
    obtain ⟨k2, v2⟩ := p
    by_cases h : k2 = k
    · simp [dictSet, dictGet, h]
    · simp [dictSet, dictGet, h, ih]

theorem dictGet_dictSet_ne (d : PyDict) (k v k2 : String) (h : k2 ≠ k) :
    dictGet (dictSet d k v) k2 = dictGet d k2 := by
  induction d with
  | nil => simp [dictSet, dictGet, Ne.symm h]
  | cons p t ih =>
    obtain ⟨k3, v3⟩ := p
    by_cases h3 : k3 = k
    · by_cases h4 : k3 = k2
      · exact absurd (h4.symm.trans h3) h
      · simp [dictSet, dictGet, h3, h4, Ne.symm h]
    · by_cases h4 : k3 = k2
      · simp [dictSet, dictGet, h3, h4, h]
      · simp [dictSet, dictGet, h3, h4, ih]

theorem dictGet_none_iff_getLast_none (d : PyDict) (k : String) :
    dictGet d k = none ↔ dictGetLast d k = none := by
  induction d with
  | nil => simp [dictGet, dictGetLast]
  | cons p t ih =>
    obtain ⟨k2, v2⟩ := p
    by_cases h : k2 = k
    · subst h
      simp only [dictGet, dictGetLast, beq_self_eq_true, if_true]
      constructor
      · intro h2; cases h2
      · intro h2
        cases h3 : dictGetLast t k2 <;> simp [h3] at h2
    · simp only [dictGet, dictGetLast]
      rw [if_neg (by simpa using h), ih]
      cases h3 : dictGetLast t k <;> simp [h3, h]

theorem dictGet_eq_none_of_not_mem (d : PyDict) (k : String)
    (h : k ∉ d.map Prod.fst) : dictGet d k = none := by
  induction d with
  | nil => simp [dictGet]
  | cons p t ih =>
    obtain ⟨k2, v2⟩ := p
    simp only [List.map_cons, List.mem_cons] at h
    push_neg at h
    have hk : ¬(k2 = k) := fun h2 => h.1 h2.symm
    simp [dictGet, hk, ih h.2]

theorem mem_keys_dictSet (d : PyDict) (k v x : String) :
    x ∈ (dictSet d k v).map Prod.fst ↔ x ∈ d.map Prod.fst ∨ x = k := by
  induction d with
  | nil => simp [dictSet]
  | cons p t ih =>
    obtain ⟨k2, v2⟩ := p
    by_cases h : k2 = k
    · subst h
      simp only [dictSet, beq_self_eq_true, if_true, List.map_cons, List.mem_cons]
      tauto
    · simp only [dictSet, List.map_cons, List.mem_cons]
      rw [if_neg (by simpa using h)]
      simp only [List.map_cons, List.mem_cons, ih]
      tauto

theorem dictSet_nodup (d : PyDict) (k v : String)
    (h : (d.map Prod.fst).Nodup) : ((dictSet d k v).map Prod.fst).Nodup := by
  induction d with
  | nil => simp [dictSet]
  | cons p t ih =>
    obtain ⟨k2, v2⟩ := p
    simp only [List.map_cons, List.nodup_cons] at h
    by_cases hk : k2 = k
    · subst hk
      simpa [dictSet] using h
    · simp only [dictSet]
      rw [if_neg (by simpa using hk)]
      simp only [List.map_cons, List.nodup_cons]
      refine ⟨fun hmem => ?_, ih h.2⟩
      rcases (mem_keys_dictSet t k v k2).mp hmem with h2 | h2
      · exact h.1 h2
      · exact hk h2

theorem decodeEnvTokens_nodup (ts : List String) (acc d : PyDict)
    (hacc : (acc.map Prod.fst).Nodup) (h : decodeEnvTokens ts acc = Except.ok d) :
    (d.map Prod.fst).Nodup := by
  induction ts generalizing acc with
  | nil =>
    unfold decodeEnvTokens at h
    cases h
    exact hacc
  | cons kv rest ih =>
    unfold decodeEnvTokens at h
    split at h
    · exact ih _ (dictSet_nodup _ _ _ hacc) h
    · cases h

theorem _decode_env_vars_nodup (s src : String) (d : PyDict)
    (h : _decode_env_vars s src = Except.ok d) : (d.map Prod.fst).Nodup := by
  unfold _decode_env_vars at h
  split at h
  · cases h
    exact decodeEnvTokens_nodup _ [] _ (by simp) (by assumption)
  · cases h

theorem dictGet_eq_dictGetLast (d : PyDict) (k : String)
    (h : (d.map Prod.fst).Nodup) : dictGet d k = dictGetLast d k := by
  induction d with
  | nil => simp [dictGet, dictGetLast]
  | cons p t ih =>
    obtain ⟨k2, v2⟩ := p
    simp only [List.map_cons, List.nodup_cons] at h
    by_cases hk : k2 = k
    · subst hk
      have ht : dictGet t k2 = none := dictGet_eq_none_of_not_mem _ _ h.1
      have ht2 : dictGetLast t k2 = none := (dictGet_none_iff_getLast_none _ _).mp ht
      simp [dictGet, dictGetLast, ht2]
    · simp only [dictGet, dictGetLast]
      rw [if_neg (by simpa using hk), if_neg (by simpa using hk), ih h.2]
      cases h3 : dictGetLast t k <;> simp [h3]

theorem dictGet_dictMerge (b a : PyDict) (k : String) :
    dictGet (dictMerge a b) k =
      match dictGetLast b k with
      | some v => some v
      | none => dictGet a k := by
  induction b generalizing a with
  | nil => simp [dictMerge, dictGetLast]
  | cons p t ih =>
    obtain ⟨k2, v2⟩ := p
    rw [show dictMerge a ((k2, v2) :: t) = dictMerge (dictSet a k2 v2) t from rfl, ih]
    cases hgl : dictGetLast t k with
    | some v => simp [dictGetLast, hgl]
    | none =>
      simp only [dictGetLast, hgl]
      by_cases hk : k2 = k
      · subst hk
        simp [dictGet_dictSet_eq]
      · rw [if_neg (by simpa using hk), dictGet_dictSet_ne _ _ _ _ (Ne.symm hk)]

/-! ## Stats lemmas -/

theorem statGet_eq_none_of_not_contains (d : StatDict) (h : String)
    (hc : statContains d h = false) : statGet d h = none := by
  induction d with
  | nil => simp [statGet]
  | cons p t ih =>
    obtain ⟨k, v⟩ := p
    simp only [statContains, Bool.or_eq_false_iff] at hc
    have hk : ¬(k = h) := by
      intro h2
      subst h2
      simp at hc
    simp [statGet, hk, ih hc.2]

theorem buildResultHost_eq_spec (stats : RunnerStats) (host : String) :
    buildResultHost stats host = specHostRecord stats host := by
  have hfield : ∀ d : StatDict,
      (if statContains d host then (statGet d host).getD 0 else 0) = (statGet d host).getD 0 := by
    intro d
    by_cases hc : statContains d host = true
    · simp [hc]
    · have hn := statGet_eq_none_of_not_contains d host (by simpa using hc)
      simp [hc, hn]
  simp only [buildResultHost, specHostRecord, hfield]

/-- In any successful `_runner_options` result the merged environment is
the Job dict overlaid by the Execution dict, exactly as the source builds
it: `{**{**{}, **job_vars}, **execution_vars}`. -/
theorem runner_options_envvars (job : Job) (ex : JobExecution) (cfg : AwConfig) (env : AwEnv)
    (now suffix : String) (jcsv ecsv : String) (jd ed : PyDict) (opts : RunnerOpts)
    (hj : job.environment_vars = some jcsv) (he : ex.environment_vars = some ecsv)
    (hdj : _decode_env_vars jcsv "Job" = Except.ok jd)
    (hde : _decode_env_vars ecsv "Execution" = Except.ok ed)
    (hok : _runner_options job ex cfg env now suffix = Except.ok opts) :
    opts.envvars = dictMerge (dictMerge [] jd) ed := by
  unfold _runner_options at hok
  simp only [hj, hdj, he, hde] at hok
  cases hdir : env.run_isolate_dir with
  | true => simp [hdir, pyStrTrueDiv] at hok
  | false =>
    simp only [hdir, Bool.false_eq_true, if_false, Except.ok.injEq] at hok
    rw [← hok]
    cases ht : env.run_timeout_set <;> cases hp : env.run_isolate_process <;> simp [ht, hp]

/-- C5. `parse_run_result` produces, for exactly the hosts of the
`processed` set and in that order, the per-host records described by the
spec (`specHostRecord`), a result whose `failed` flag equals the outcome's
`errored` flag, stores the result on the execution, and sets the status to
"Failed" iff `errored`, else "Finished". -/
theorem C5_parse_run_result (ex : JobExecution) (ts : String) (res : AnsibleRunnerRes) :
    parse_run_result ex ts res =
      ({ time_start := ts, failed := res.errored },
       res.stats.processed.map (specHostRecord res.stats),
       { ex with
           result := some { time_start := ts, failed := res.errored }
           status := if res.errored then "Failed" else "Finished" }) := by
  unfold parse_run_result
  rw [show buildResultHost res.stats = specHostRecord res.stats from
    funext (buildResultHost_eq_spec res.stats)]
  cases hres : res.errored <;> simp [hres]

/-- C6. For well-formed Job and Execution environment CSVs, the merged
mapping of the options builder gives the Execution's value for every key
the Execution defines (in particular for keys present in both sources),
and falls back to the Job's value — present or absent — for every key the
Execution does not define. -/
theorem C6_env_override (job : Job) (ex : JobExecution) (cfg : AwConfig) (env : AwEnv)
    (now suffix : String) (jcsv ecsv : String) (jd ed : PyDict) (opts : RunnerOpts) (k : String)
    (hj : job.environment_vars = some jcsv) (he : ex.environment_vars = some ecsv)
    (hdj : _decode_env_vars jcsv "Job" = Except.ok jd)
    (hde : _decode_env_vars ecsv "Execution" = Except.ok ed)
    (hok : _runner_options job ex cfg env now suffix = Except.ok opts) :
    (∀ v, dictGet ed k = some v → dictGet opts.envvars k = some v) ∧
    (dictGet ed k = none → dictGet opts.envvars k = dictGet jd k) := by
  have henv := runner_options_envvars job ex cfg env now suffix jcsv ecsv jd ed opts
    hj he hdj hde hok
  rw [henv]
  have hnj := _decode_env_vars_nodup _ _ _ hdj
  have hne := _decode_env_vars_nodup _ _ _ hde
  constructor
  · intro v hv
    rw [dictGet_eq_dictGetLast ed k hne] at hv
    rw [dictGet_dictMerge, hv]
  · intro hv
    rw [dictGet_none_iff_getLast_none] at hv
    rw [dictGet_dictMerge, hv, dictGet_dictMerge, dictGet_eq_dictGetLast jd k hnj]
    cases h3 : dictGetLast jd k <;> simp [dictGet]

/-- C10. An empty (but non-None) environment-variable CSV string is
malformed for `_decode_env_vars` — `''.split(',')` is `['']` and `''` has
no `=` — so run preparation raises the configuration error naming the
owning source and stops at status "Starting"; only a `None` field is
skipped and yields the empty mapping. -/
theorem C10_empty_env_string (src : String) (job : Job) (ex : JobExecution) (cfg : AwConfig)
    (env : AwEnv) (now suffix : String) (fs : FS) :
    (_decode_env_vars "" src = Except.error (PyError.ansibleConfigError (envVarsFormatError src)))
    ∧ (job.environment_vars = some "" →
        runner_prep job (some ex) cfg env now suffix fs =
          (Except.error (PyError.ansibleConfigError (envVarsFormatError "Job")), "Starting", fs))
    ∧ (job.environment_vars = none → ex.environment_vars = some "" →
        runner_prep job (some ex) cfg env now suffix fs =
          (Except.error (PyError.ansibleConfigError (envVarsFormatError "Execution")), "Starting", fs))
    ∧ (job.environment_vars = none → ex.environment_vars = none → env.run_isolate_dir = false →
        ∃ opts, _runner_options job ex cfg env now suffix = Except.ok opts ∧ opts.envvars = []) := by
  refine ⟨rfl, ?_, ?_, ?_⟩
  · intro hj
    unfold runner_prep _runner_options
    rw [hj]
    rfl
  · intro hj he
    unfold runner_prep _runner_options
    simp only [hj, he]
    rfl
  · intro hj he hdir
    unfold _runner_options
    rw [hj, he, hdir]
    cases ht : env.run_timeout_set <;> cases hp : env.run_isolate_process <;>
      exact ⟨_, rfl, rfl⟩

/-- Job fixture for the C6 witness: `a=1,b=2` at the job level. -/
def c6Job : Job := { environment_vars := some "a=1,b=2" }

/-- Execution fixture for the C6 witness: override `b=3,c=4`. -/
def c6Ex : JobExecution := { environment_vars := some "b=3,c=4" }

/-- The options the builder produces for the C6 fixtures. -/
def c6Opts : RunnerOpts :=
  match _runner_options c6Job c6Ex cfg0 {} "t" "00000" with
  | Except.ok o => o
  | Except.error _ => {}

/-- Witness for C6 at a concrete input: the shared key `b` takes the
Execution's value `3`, and the Execution-absent key `a` keeps the Job's
value. -/
theorem C6_env_override_witness :
    dictGet c6Opts.envvars "b" = some "3"
    ∧ dictGet c6Opts.envvars "a" = dictGet [("a", "1"), ("b", "2")] "a" :=
  ⟨(C6_env_override c6Job c6Ex cfg0 {} "t" "00000" "a=1,b=2" "b=3,c=4"
      [("a", "1"), ("b", "2")] [("b", "3"), ("c", "4")] c6Opts "b"
      rfl rfl rfl rfl rfl).1 "3" rfl,
   (C6_env_override c6Job c6Ex cfg0 {} "t" "00000" "a=1,b=2" "b=3,c=4"
      [("a", "1"), ("b", "2")] [("b", "3"), ("c", "4")] c6Opts "a"
      rfl rfl rfl rfl rfl).2 rfl⟩

/-- Witness for C10 at a concrete input: a job whose environment-variable
field is the empty string makes `runner_prep` fail with the Job-naming
configuration error while the status stays "Starting". -/
theorem C10_empty_env_string_witness :
    runner_prep { environment_vars := some "" } (some {}) cfg0 {} "t" "00000" {} =
      (Except.error (PyError.ansibleConfigError (envVarsFormatError "Job")), "Starting", ({} : FS)) :=
  (C10_empty_env_string "Job" { environment_vars := some "" } {} cfg0 {} "t" "00000" {}).2.1 rfl

/-- A token on which `k, v = kv.split('=')` raises `ValueError`: its split
at `=` is not a two-element list. -/
def badToken (t : String) : Bool :=
  match pySplit t '=' with
  | [_, _] => false
  | _ => true

theorem badToken_eq (t : String) : badToken t = ((pySplit t '=').length != 2) := by
  unfold badToken
  rcases pySplit t '=' with _ | ⟨a, _ | ⟨b, _ | ⟨c, tl⟩⟩⟩ <;> simp

theorem malformedCsv_eq_any_badToken (s : String) :
    malformedCsv s = (pySplit s ',').any badToken := by
  unfold malformedCsv
  congr 1
  funext t
  exact (badToken_eq t).symm

theorem decodeEnvTokens_error_iff (ts : List String) (acc : PyDict) :
    decodeEnvTokens ts acc = Except.error () ↔ ts.any badToken = true := by
  induction ts generalizing acc with
  | nil => simp [decodeEnvTokens]
  | cons kv rest ih =>
    unfold decodeEnvTokens
    rcases hsp : pySplit kv '=' with _ | ⟨a, _ | ⟨b, _ | ⟨c, tl⟩⟩⟩ <;>
      simp [hsp, badToken, ih, List.any_cons]

/-- A malformed CSV makes `_decode_env_vars` raise the configuration error
naming its source. -/
theorem _decode_env_vars_error_of_malformed (s src : String) (h : malformedCsv s = true) :
    _decode_env_vars s src = Except.error (PyError.ansibleConfigError (envVarsFormatError src)) := by
  unfold _decode_env_vars
  rw [malformedCsv_eq_any_badToken] at h
  rw [(decodeEnvTokens_error_iff (pySplit s ',') []).mpr h]

/-- Every successful `_runner_options` result carries the configured
project dir and the allocated run path, and leaves playbook/inventory for
`runner_prep` to fill. -/
theorem runner_options_ok_fields (job : Job) (ex : JobExecution) (cfg : AwConfig) (env : AwEnv)
    (now suffix : String) (opts : RunnerOpts)
    (hok : _runner_options job ex cfg env now suffix = Except.ok opts) :
    opts.project_dir = cfg.path_play ∧ opts.private_data_dir = runPath cfg now suffix ∧
    opts.playbook = [] ∧ opts.inventory = [] := by
  unfold _runner_options at hok
  split at hok
  · cases hok
  · split at hok
    · cases hok
    · cases hdir : env.run_isolate_dir with
      | true => simp [hdir, pyStrTrueDiv] at hok
      | false =>
        simp only [hdir, Bool.false_eq_true, if_false, Except.ok.injEq] at hok
        rw [← hok]
        cases ht : env.run_timeout_set <;> cases hp : env.run_isolate_process <;> simp [ht, hp]

/-- The job's environment-variable field is absent or parses. -/
def jobEnvDecodes (job : Job) : Prop :=
  job.environment_vars = none ∨
    ∃ s d, job.environment_vars = some s ∧ _decode_env_vars s "Job" = Except.ok d

/-- C4, amended. Malformed environment CSVs on the Job or the Execution
make `runner_prep` raise the configuration error naming that source, with
the status left at "Starting" and the filesystem untouched; and whenever
options building succeeded (in particular the run-isolate-directory toggle
is off, see `C8_isolate_dir_typeerror`), a missing playbook or inventory
path makes it raise the configuration error naming the missing path, again
with status "Starting" and no run directory created. -/
theorem C4_prep_errors (job : Job) (ex : JobExecution) (cfg : AwConfig) (env : AwEnv)
    (now suffix : String) (fs : FS) :
    (∀ jcsv, job.environment_vars = some jcsv → malformedCsv jcsv = true →
      runner_prep job (some ex) cfg env now suffix fs =
        (Except.error (PyError.ansibleConfigError (envVarsFormatError "Job")), "Starting", fs))
    ∧ (∀ ecsv, jobEnvDecodes job → ex.environment_vars = some ecsv → malformedCsv ecsv = true →
      runner_prep job (some ex) cfg env now suffix fs =
        (Except.error (PyError.ansibleConfigError (envVarsFormatError "Execution")), "Starting", fs))
    ∧ (∀ opts0, _runner_options job ex cfg env now suffix = Except.ok opts0 →
      ((pySplit job.playbook ',').any (fun p => !(fs.isFile (projectDirSlash cfg.path_play ++ p)))
        || (pySplit job.inventory ',').any
             (fun inv => !(fs.pathExists (projectDirSlash cfg.path_play ++ inv)))) = true →
      ∃ pth,
        (runner_prep job (some ex) cfg env now suffix fs =
            (Except.error (PyError.ansibleConfigError (playbookNotFoundMsg pth)), "Starting", fs)
          ∧ fs.isFile pth = false)
        ∨ (runner_prep job (some ex) cfg env now suffix fs =
            (Except.error (PyError.ansibleConfigError (inventoryNotFoundMsg pth)), "Starting", fs)
          ∧ fs.pathExists pth = false)) := by
  refine ⟨?_, ?_, ?_⟩
  · intro jcsv hj hm
    have herr := _decode_env_vars_error_of_malformed jcsv "Job" hm
    unfold runner_prep _runner_options
    simp only [hj, herr]
  · intro ecsv hjok he hm
    have herr := _decode_env_vars_error_of_malformed ecsv "Execution" hm
    rcases hjok with hj | ⟨s, d, hj, hd⟩
    · unfold runner_prep _runner_options
      simp only [hj, he, herr]
    · unfold runner_prep _runner_options
      simp only [hj, hd, he, herr]
  · intro opts0 hok hmiss
    obtain ⟨hpd, _, _, _⟩ := runner_options_ok_fields job ex cfg env now suffix opts0 hok
    unfold runner_prep
    simp only [hok, hpd]
    cases hfp : (pySplit job.playbook ',').find?
        (fun p => !(fs.isFile (projectDirSlash cfg.path_play ++ p))) with
    | some p =>
      refine ⟨projectDirSlash cfg.path_play ++ p, Or.inl ⟨?_, ?_⟩⟩
      · simp [hfp]
      · have := List.find?_some hfp
        simpa using this
    | none =>
      have hallp : (pySplit job.playbook ',').any
          (fun p => !(fs.isFile (projectDirSlash cfg.path_play ++ p))) = false := by
        rw [Bool.eq_false_iff]
        intro hany
        obtain ⟨x, hx, hpx⟩ := List.any_eq_true.mp hany
        exact (List.find?_eq_none.mp hfp x hx) hpx
      have hinv : (pySplit job.inventory ',').any
          (fun inv => !(fs.pathExists (projectDirSlash cfg.path_play ++ inv))) = true := by
        have hor : (pySplit job.playbook ',').any
            (fun p => !(fs.isFile (projectDirSlash cfg.path_play ++ p))) = true
            ∨ (pySplit job.inventory ',').any
              (fun inv => !(fs.pathExists (projectDirSlash cfg.path_play ++ inv))) = true := by
          simpa using hmiss
        rcases hor with h | h
        · rw [hallp] at h
          cases h
        · exact h
      cases hfi : (pySplit job.inventory ',').find?
          (fun inv => !(fs.pathExists (projectDirSlash cfg.path_play ++ inv))) with
      | none =>
        obtain ⟨x, hx, hpx⟩ := List.any_eq_true.mp hinv
        exact absurd hpx (List.find?_eq_none.mp hfi x hx)
      | some inv =>
        refine ⟨projectDirSlash cfg.path_play ++ inv, Or.inr ⟨?_, ?_⟩⟩
        · simp [hfp, hfi]
        · have := List.find?_some hfi
          simpa using this

/-- Witness for C4 at concrete inputs: a malformed Job CSV aborts
preparation with the Job-naming error, and (with isolation off) a missing
playbook aborts it naming the missing path; both leave status "Starting"
and the filesystem unchanged. -/
theorem C4_prep_errors_witness :
    runner_prep { environment_vars := some "oops" } (some {}) cfg0 {} "t" "00000" {} =
      (Except.error (PyError.ansibleConfigError (envVarsFormatError "Job")), "Starting", ({} : FS)) :=
  (C4_prep_errors { environment_vars := some "oops" } {} cfg0 {} "t" "00000" {}).1 "oops" rfl rfl

/-- C7, amended. Calling stop on the manager while it is already stopping
is a no-op returning `False` with the state unchanged; calling stop on an
already-stopped worker leaves the worker state unchanged but returns
`True` — `Workload.stop` has no already-stopped guard. -/
theorem C7_idempotent_stop :
    (∀ m : ThreadManager, m.stopping = true → m.stop = (false, m)) ∧
    (∀ w : Workload, w.started = false → w.stopped = true → w.state_stop = true →
      Workload.stop w = (true, w)) := by
  constructor
  · intro m h
    simp [ThreadManager.stop, h]
  · intro w h1 h2 h3
    cases w with
    | mk job once started stopped state_stop =>
      simp only at h1 h2 h3
      subst h1
      subst h2
      subst h3
      rfl

/-- Witness for C7 at concrete inputs: a second manager stop returns
`False` without effect, and stopping an already-stopped worker returns
`True` with the worker unchanged. -/
theorem C7_idempotent_stop_witness :
    ThreadManager.stop { stopping := true } = (false, { stopping := true }) ∧
    Workload.stop stoppedWorker = (true, stoppedWorker) :=
  ⟨C7_idempotent_stop.1 { stopping := true } rfl,
   C7_idempotent_stop.2 stoppedWorker rfl rfl rfl⟩

/-! ## Heap lemmas -/

theorem heapGet_modify_eq (h : List (Nat × Workload)) (wid : Nat) (f : Workload → Workload) :
    heapGet (heapModify h wid f) wid = (heapGet h wid).map f := by
  induction h with
  | nil => simp [heapGet, heapModify]
  | cons p t ih =>
    obtain ⟨k, w⟩ := p
    by_cases hk : k = wid
    · simp [heapModify, heapGet, hk]
    · simp [heapModify, heapGet, hk, ih]

theorem heapGet_modify_ne (h : List (Nat × Workload)) (wid u : Nat) (f : Workload → Workload)
    (hne : u ≠ wid) : heapGet (heapModify h wid f) u = heapGet h u := by
  induction h with
  | nil => simp [heapGet, heapModify]
  | cons p t ih =>
    obtain ⟨k, w⟩ := p
    by_cases hk : k = wid
    · have h2 : ¬(k = u) := fun h3 => hne (h3.symm.trans hk)
      simp [heapModify, heapGet, hk, h2, Ne.symm hne]
    · by_cases hu : k = u
      · simp [heapModify, heapGet, hk, hu, hne]
      · simp [heapModify, heapGet, hk, hu, ih]

theorem heapGet_append (h : List (Nat × Workload)) (n : Nat) (w : Workload) (u : Nat) :
    heapGet (h ++ [(n, w)]) u =
      match heapGet h u with
      | some x => some x
      | none => if n == u then some w else none := by
  induction h with
  | nil => simp [heapGet]
  | cons p t ih =>
    obtain ⟨k, w2⟩ := p
    by_cases hk : k = u
    · simp [heapGet, hk]
    · simp [heapGet, hk, ih]

theorem heapGet_none_of_all_le (h : List (Nat × Workload)) (bound u : Nat)
    (hall : h.all (fun p => p.1 ≤ bound) = true) (hu : bound < u) : heapGet h u = none := by
  induction h with
  | nil => simp [heapGet]
  | cons p t ih =>
    obtain ⟨k, w⟩ := p
    simp only [List.all_cons, Bool.and_eq_true] at hall
    have hk : k ≤ bound := by simpa using hall.1
    have hne : ¬(k = u) := by
      intro h2
      subst h2
      exact absurd hu (not_lt_of_le hk)
    simp [heapGet, hne, ih hall.2]

theorem heapModify_keys_le (h : List (Nat × Workload)) (wid : Nat) (f : Workload → Workload)
    (bound : Nat) (hall : h.all (fun p => p.1 ≤ bound) = true) :
    (heapModify h wid f).all (fun p => p.1 ≤ bound) = true := by
  induction h with
  | nil => simp [heapModify]
  | cons p t ih =>
    obtain ⟨k, w⟩ := p
    simp only [List.all_cons, Bool.and_eq_true] at hall
    have h1 : k ≤ bound := by simpa using hall.1
    by_cases hk : k = wid
    · simp [heapModify, hk, List.all_cons, hall.2, h1, hk ▸ h1]
    · simp only [heapModify]
      rw [if_neg (by simpa using hk)]
      simp [List.all_cons, h1, ih hall.2]

/-! ## List lemmas for the scheduler proofs -/

theorem find?_of_filter_eq_singleton {α : Type} (l : List α) (p q : α → Bool) (x : α)
    (hq : ∀ e, q e = true → p e = true) (hfil : l.filter p = [x]) (hx : q x = true) :
    l.find? q = some x := by
  induction l with
  | nil => simp at hfil
  | cons a t ih =>
    by_cases hpa : p a = true
    · rw [List.filter_cons_of_pos hpa] at hfil
      obtain ⟨rfl, hft⟩ : a = x ∧ t.filter p = [] := by simpa using hfil
      simp [List.find?_cons, hx]
    · have hqa : q a = false := by
        cases hqa2 : q a
        · rfl
        · exact absurd (hq a hqa2) hpa
      rw [List.filter_cons_of_neg (by simpa using hpa)] at hfil
      simp [List.find?_cons, hqa, ih hfil]

theorem filter_eq_false_of_singleton {α : Type} (l : List α) (p : α → Bool) (x e : α)
    (hfil : l.filter p = [x]) (he : e ∈ l) (hne : e ≠ x) : p e = false := by
  cases hp : p e
  · rfl
  · have : e ∈ l.filter p := List.mem_filter.mpr ⟨he, hp⟩
    rw [hfil] at this
    exact absurd (List.mem_singleton.mp this) hne

theorem find?_append_of_all_false {α : Type} (l1 l2 : List α) (q : α → Bool)
    (h : ∀ e ∈ l1, q e = false) : (l1 ++ l2).find? q = l2.find? q := by
  induction l1 with
  | nil => simp
  | cons a t ih =>
    have ha : q a = false := h a (List.mem_cons_self a t)
    simp only [List.cons_append, List.find?_cons, ha]
    exact ih (fun e he => h e (List.mem_cons_of_mem a he))

/-- When `Workload.run` returns (rather than running out of fuel) for a
recurring, not-stopped worker, that worker's stop event is set: no error
and no playbook outcome ends the recurring loop, only the stop signal. -/
theorem runWorkload_some_stop_signal (o : RunOracle) (wid : Nat) :
    ∀ (fuel : Nat) (ph : RunPhase) (c c2 : RunCtx) (w : Workload),
      heapGet c.mgr.heap wid = some w → w.once = false → w.stopped = false →
      runWorkload o wid fuel ph c = some c2 → stopSignalSet c2 wid = true := by
  intro fuel
  induction fuel with
  | zero =>
    intro ph c c2 w hw honce hstp hrun
    cases hrun
  | succ fuel ih =>
    intro ph c c2 w hw honce hstp hrun
    cases ph with
    | enter error =>
      unfold runWorkload at hrun
      simp only [hw, honce, hstp, Bool.false_and, Bool.false_eq_true, if_false] at hrun
      refine ih RunPhase.loop _ c2 { w with started := true } ?_ ?_ ?_ hrun
      · cases error <;> simp [heapGet_modify_eq, hw]
      · simpa using honce
      · simpa using hstp
    | loop =>
      unfold runWorkload at hrun
      simp only [hw] at hrun
      by_cases hsig : (w.state_stop || o.waitStop c.waitIdx) = true
      · simp only [hsig, if_true] at hrun
        obtain rfl := Option.some.inj hrun
        simp [stopSignalSet, heapGet_modify_eq, hw]
      · have hsig2 : (w.state_stop || o.waitStop c.waitIdx) = false := by
          simpa using hsig
        simp only [hsig2, Bool.false_eq_true, if_false] at hrun
        cases hplay : o.play c.playIdx with
        | ok u =>
          simp only [hplay] at hrun
          refine ih RunPhase.loop _ c2 w ?_ honce hstp hrun
          exact hw
        | error e =>
          simp only [hplay] at hrun
          refine ih (RunPhase.enter true) _ c2 w ?_ honce hstp hrun
          exact hw

/-- C9, amended. For recurring workers (`once=False`) every playbook error
is caught inside `run` — the trace of a failing first run shows the catch,
the FAIL_SLEEP backoff and the re-entered loop — and `run` only returns
once the worker's stop signal is set; a one-shot worker behaves differently
(see the C9 counterexample): it returns without backoff or stop signal. -/
theorem C9_error_backoff_loop :
    (∀ (o : RunOracle) (wid fuel : Nat) (ph : RunPhase) (c c2 : RunCtx) (w : Workload),
      heapGet c.mgr.heap wid = some w → w.once = false → w.stopped = false →
      runWorkload o wid fuel ph c = some c2 → stopSignalSet c2 wid = true)
    ∧ runWorkload errThenStopOracle 1 10 (RunPhase.enter false) { mgr := recurringMgr } =
        some recurringErrFinal
    ∧ recurringErrFinal.events =
        [RunEvent.runtimeEnter, RunEvent.playbook, RunEvent.caught,
         RunEvent.failSleep, RunEvent.runtimeEnter, RunEvent.loopExitStop] :=
  ⟨fun o wid fuel ph c c2 w => runWorkload_some_stop_signal o wid fuel ph c c2 w, rfl, rfl⟩

/-- Witness for C9 at a concrete input: the recurring worker of
`recurringMgr`, whose first playbook run raises and which is stopped during
its second wait, ends its run with the stop signal set. -/
theorem C9_error_backoff_loop_witness :
    stopSignalSet recurringErrFinal 1 = true :=
  C9_error_backoff_loop.1 errThenStopOracle 1 10 (RunPhase.enter false)
    { mgr := recurringMgr } recurringErrFinal (Workload.init 4 false) rfl rfl rfl
    C9_error_backoff_loop.2.1

/-! ## Scheduler-manager lemmas for C1 -/

theorem jobMatch_of_stopThreadMatch (m : ThreadManager) (job : Nat) (e : SetElem)
    (h : stopThreadMatch m job e = true) : jobMatch m job e = true := by
  cases e with
  | worker wid =>
    simp only [stopThreadMatch] at h
    simp only [jobMatch]
    cases hg : heapGet m.heap wid with
    | some w =>
      rw [hg] at h
      rw [Bool.and_eq_true] at h
      exact h.1
    | none =>
      rw [hg] at h
      cases h
  | job jid =>
    simp only [stopThreadMatch] at h
    cases h

theorem jobMatch_of_startThreadMatch (m : ThreadManager) (job : Nat) (e : SetElem)
    (h : startThreadMatch m job e = true) : jobMatch m job e = true := by
  cases e with
  | worker wid =>
    simp only [startThreadMatch] at h
    simp only [jobMatch]
    cases hg : heapGet m.heap wid with
    | some w =>
      rw [hg] at h
      rw [Bool.and_eq_true] at h
      exact h.1
    | none =>
      rw [hg] at h
      cases h
  | job jid =>
    simp only [startThreadMatch] at h
    cases h

/-- Unfolding of `stop_thread` when the scan finds a started worker. -/
theorem stop_thread_eq (m : ThreadManager) (job wid : Nat)
    (hfind : m.threads.find? (stopThreadMatch m job) = some (SetElem.worker wid)) :
    m.stop_thread job =
      { m with heap := heapModify m.heap wid (fun w2 => (Workload.stop w2).2),
               threads := m.threads.erase (SetElem.worker wid) } := by
  unfold ThreadManager.stop_thread
  rw [hfind]

/-- Unfolding of `start_thread` when the scan finds a not-started,
not-stopped worker. -/
theorem start_thread_eq (m : ThreadManager) (job wid : Nat) (w : Workload)
    (hfind : m.threads.find? (startThreadMatch m job) = some (SetElem.worker wid))
    (hw : heapGet m.heap wid = some w) (hnstop : w.stopped = false) :
    m.start_thread job =
      { m with heap := heapModify m.heap wid (fun w2 => { w2 with started := true }) } := by
  unfold ThreadManager.start_thread
  rw [hfind]
  simp only [hw, hnstop, Bool.false_eq_true, if_false]

/-- A manager whose set is `l1 ++ [x]` with `x` the only element matching
`job` holds exactly one worker for `job`. -/
theorem countJob_eq_one (m : ThreadManager) (job : Nat) (x : SetElem) (l1 : List SetElem)
    (hthreads : m.threads = l1 ++ [x])
    (hfalse : ∀ e ∈ l1, jobMatch m job e = false)
    (htrue : jobMatch m job x = true) : m.countJob job = 1 := by
  unfold ThreadManager.countJob
  rw [hthreads, List.filter_append]
  rw [List.filter_eq_nil_iff.mpr (fun e he => by simp [hfalse e he])]
  simp [List.filter_cons, htrue]

/-- C1, amended. `replace_thread(job)` on a manager whose active set holds
exactly one worker for `job`, that worker being started, leaves exactly one
worker for `job`: `stop_thread` finds and removes the started worker,
`add_thread` registers a fresh one and `start_thread` starts it.  (Without
the started condition the invariant fails — see the C1 counterexample —
because `stop_thread` skips not-yet-started workers while `add_thread`
adds unconditionally.) -/
theorem C1_replace_single_started_worker (m : ThreadManager) (job wid : Nat) (w : Workload)
    (hwf : m.wf = true) (hnd : m.threads.Nodup)
    (hfil : m.threads.filter (jobMatch m job) = [SetElem.worker wid])
    (hw : heapGet m.heap wid = some w) (hs : w.started = true) :
    (m.replace_thread job).countJob job = 1 := by
  -- well-formedness parts
  have hwf2 := hwf
  unfold ThreadManager.wf at hwf2
  rw [Bool.and_eq_true] at hwf2
  obtain ⟨hallheap, hallthreads⟩ := hwf2
  have hbound : ∀ u, SetElem.worker u ∈ m.threads → u ≤ m.thread_nr := by
    intro u hu
    have h2 := List.all_eq_true.mp hallthreads _ hu
    simpa using h2
  -- the singleton element of the filter
  have hxmem : SetElem.worker wid ∈ m.threads ∧ jobMatch m job (SetElem.worker wid) = true := by
    have hx : SetElem.worker wid ∈ m.threads.filter (jobMatch m job) := by
      rw [hfil]
      exact List.mem_singleton_self _
    exact List.mem_filter.mp hx
  have hwjob : (w.job == job) = true := by
    have h2 := hxmem.2
    simp only [jobMatch, hw] at h2
    exact h2
  -- stop_thread finds the started worker
  have hstopx : stopThreadMatch m job (SetElem.worker wid) = true := by
    simp only [stopThreadMatch, hw, hwjob, hs, Bool.and_self]
  have hfind1 : m.threads.find? (stopThreadMatch m job) = some (SetElem.worker wid) :=
    find?_of_filter_eq_singleton _ _ _ _ (jobMatch_of_stopThreadMatch m job) hfil hstopx
  have hstep1 := stop_thread_eq m job wid hfind1
  -- elements surviving the erase
  have hthreads1_mem : ∀ e ∈ m.threads.erase (SetElem.worker wid),
      e ∈ m.threads ∧ e ≠ SetElem.worker wid := by
    intro e he
    have h2 := (List.Nodup.mem_erase_iff hnd).mp he
    exact ⟨h2.2, h2.1⟩
  have hjm_false : ∀ e ∈ m.threads.erase (SetElem.worker wid), jobMatch m job e = false := by
    intro e he
    obtain ⟨hmem, hne⟩ := hthreads1_mem e he
    exact filter_eq_false_of_singleton _ _ _ _ hfil hmem hne
  -- heap lookups across the three steps
  have hkeys1 : (heapModify m.heap wid (fun w2 => (Workload.stop w2).2)).all
      (fun p => p.1 ≤ m.thread_nr) = true :=
    heapModify_keys_le _ _ _ _ hallheap
  have hnone1 : heapGet (heapModify m.heap wid (fun w2 => (Workload.stop w2).2))
      (m.thread_nr + 1) = none :=
    heapGet_none_of_all_le _ m.thread_nr _ hkeys1 (Nat.lt_succ_self _)
  have hget2 : ∀ u, u ≤ m.thread_nr →
      heapGet (heapModify m.heap wid (fun w2 => (Workload.stop w2).2)
        ++ [(m.thread_nr + 1, Workload.init job false)]) u =
      heapGet (heapModify m.heap wid (fun w2 => (Workload.stop w2).2)) u := by
    intro u hu
    rw [heapGet_append]
    cases hg : heapGet (heapModify m.heap wid (fun w2 => (Workload.stop w2).2)) u with
    | some x => rfl
    | none =>
      have hne : ¬(m.thread_nr + 1 = u) := by omega
      simp [hne]
  have hget2nr : heapGet (heapModify m.heap wid (fun w2 => (Workload.stop w2).2)
      ++ [(m.thread_nr + 1, Workload.init job false)]) (m.thread_nr + 1) =
      some (Workload.init job false) := by
    rw [heapGet_append, hnone1]
    simp
  have hget3 : ∀ u, u ≤ m.thread_nr →
      heapGet (heapModify (heapModify m.heap wid (fun w2 => (Workload.stop w2).2)
        ++ [(m.thread_nr + 1, Workload.init job false)]) (m.thread_nr + 1)
        (fun w2 => { w2 with started := true })) u =
      heapGet (heapModify m.heap wid (fun w2 => (Workload.stop w2).2)) u := by
    intro u hu
    rw [heapGet_modify_ne _ _ _ _ (by omega), hget2 u hu]
  have hget3nr : heapGet (heapModify (heapModify m.heap wid (fun w2 => (Workload.stop w2).2)
      ++ [(m.thread_nr + 1, Workload.init job false)]) (m.thread_nr + 1)
      (fun w2 => { w2 with started := true })) (m.thread_nr + 1) =
      some { Workload.init job false with started := true } := by
    rw [heapGet_modify_eq, hget2nr]
    rfl
  have hget1 : ∀ u, u ≠ wid →
      heapGet (heapModify m.heap wid (fun w2 => (Workload.stop w2).2)) u = heapGet m.heap u :=
    fun u hu => heapGet_modify_ne _ _ _ _ hu
  -- start_thread on the post-add manager
  have hstart_false : ∀ e ∈ m.threads.erase (SetElem.worker wid),
      startThreadMatch
        { m with thread_nr := m.thread_nr + 1,
                 heap := heapModify m.heap wid (fun w2 => (Workload.stop w2).2)
                   ++ [(m.thread_nr + 1, Workload.init job false)],
                 threads := m.threads.erase (SetElem.worker wid)
                   ++ [SetElem.worker (m.thread_nr + 1)] } job e = false := by
    intro e he
    obtain ⟨hmem, hne⟩ := hthreads1_mem e he
    have hjm := hjm_false e he
    cases e with
    | job jid => rfl
    | worker u =>
      have hune : u ≠ wid := by
        intro h2
        exact hne (by rw [h2])
      have hub := hbound u hmem
      simp only [startThreadMatch, hget2 u hub, hget1 u hune]
      simp only [jobMatch] at hjm
      cases hgu : heapGet m.heap u with
      | none => simp
      | some w2 =>
        rw [hgu] at hjm
        have hjm2 : ¬(w2.job = job) := by simpa using hjm
        simp [hjm2]
  have hstart_nr : startThreadMatch
      { m with thread_nr := m.thread_nr + 1,
               heap := heapModify m.heap wid (fun w2 => (Workload.stop w2).2)
                 ++ [(m.thread_nr + 1, Workload.init job false)],
               threads := m.threads.erase (SetElem.worker wid)
                 ++ [SetElem.worker (m.thread_nr + 1)] } job
      (SetElem.worker (m.thread_nr + 1)) = true := by
    simp only [startThreadMatch, hget2nr]
    simp [Workload.init]
  have hfind2 : (m.threads.erase (SetElem.worker wid)
      ++ [SetElem.worker (m.thread_nr + 1)]).find?
      (startThreadMatch
        { m with thread_nr := m.thread_nr + 1,
                 heap := heapModify m.heap wid (fun w2 => (Workload.stop w2).2)
                   ++ [(m.thread_nr + 1, Workload.init job false)],
                 threads := m.threads.erase (SetElem.worker wid)
                   ++ [SetElem.worker (m.thread_nr + 1)] } job) =
      some (SetElem.worker (m.thread_nr + 1)) := by
    rw [find?_append_of_all_false _ _ _ hstart_false]
    simp [List.find?_cons, hstart_nr]
  have hstep3 := start_thread_eq
    { m with thread_nr := m.thread_nr + 1,
             heap := heapModify m.heap wid (fun w2 => (Workload.stop w2).2)
               ++ [(m.thread_nr + 1, Workload.init job false)],
             threads := m.threads.erase (SetElem.worker wid)
               ++ [SetElem.worker (m.thread_nr + 1)] } job (m.thread_nr + 1)
    (Workload.init job false) hfind2 hget2nr rfl
  -- assemble replace_thread
  have hfinal : m.replace_thread job =
      { m with thread_nr := m.thread_nr + 1,
               heap := heapModify (heapModify m.heap wid (fun w2 => (Workload.stop w2).2)
                 ++ [(m.thread_nr + 1, Workload.init job false)]) (m.thread_nr + 1)
                 (fun w2 => { w2 with started := true }),
               threads := m.threads.erase (SetElem.worker wid)
                 ++ [SetElem.worker (m.thread_nr + 1)] } := by
    unfold ThreadManager.replace_thread
    rw [hstep1]
    exact hstep3
  rw [hfinal]
  -- count the workers for the job in the final state
  apply countJob_eq_one _ job (SetElem.worker (m.thread_nr + 1))
    (m.threads.erase (SetElem.worker wid)) rfl
  · intro e he
    obtain ⟨hmem, hne⟩ := hthreads1_mem e he
    have hjm := hjm_false e he
    cases e with
    | job jid => rfl
    | worker u =>
      have hune : u ≠ wid := by
        intro h2
        exact hne (by rw [h2])
      have hub := hbound u hmem
      simp only [jobMatch, hget3 u hub, hget1 u hune]
      simp only [jobMatch] at hjm
      cases hgu : heapGet m.heap u with
      | none => simp
      | some w2 =>
        rw [hgu] at hjm
        have hjm2 : ¬(w2.job = job) := by simpa using hjm
        simp [hjm2]
  · simp only [jobMatch, hget3nr]
    simp [Workload.init]

/-- Witness for C1's amended statement at a concrete input: a manager with
exactly one started worker for job 5 still has exactly one worker for job 5
after `replace_thread 5`. -/
theorem C1_replace_single_started_worker_witness :
    (((ThreadManager.init.add_thread 5).start_thread 5).replace_thread 5).countJob 5 = 1 :=
  C1_replace_single_started_worker ((ThreadManager.init.add_thread 5).start_thread 5) 5 1
    { job := 5, once := false, started := true, stopped := false, state_stop := false }
    rfl (by decide) rfl rfl rfl
